import Mathlib

/-!
Verification of the billing core of the Maple Key Music Academy backend.

The development shallowly embeds the billing data model and operations of
`billing/models.py` and `billing/views.py`:

* Python `Decimal` values are embedded as exact rationals (`ℚ`);
* Python `float` conversion (`total_cost` wraps its `Decimal` product in
  `float(...)`, and `sum(...)` over those values adds binary doubles) is
  embedded by `pyFloat`, round-to-nearest-ties-to-even at 53 significant
  bits, the IEEE-754 binary64 rounding used by CPython for values in the
  normal range (money-sized quantities are far from the subnormal and
  overflow thresholds, so the normal-range model is exact for them);
* Python strings handled by the invoice-numbering code are embedded as
  `List Char` (`PyStr`), matching CPython string order and slicing on the
  ASCII invoice numbers involved;
* database rows are embedded as structures, and the set of already stored
  invoice numbers is passed explicitly to the operations that read it.
-/

namespace MapleKey

/-! ## Binary64 rounding model for Python float conversion -/

/-- Round a rational to the nearest integer, ties going to the even
integer (the IEEE-754 default rounding used by CPython). -/
def roundTiesEven (q : ℚ) : ℤ :=
  let f := ⌊q⌋
  let r := q - f
  if r < 1/2 then f
  else if 1/2 < r then f + 1
  else if 2 ∣ f then f else f + 1

/-- Nearest binary64 value to a positive rational `a` (normal range):
with `e` the floor of `log₂ a`, the significand is rounded to 53 bits. -/
def pyFloatPos (a : ℚ) : ℚ :=
  let e := Int.log 2 a
  (roundTiesEven (a * 2 ^ ((52:ℤ) - e)) : ℚ) * 2 ^ (e - 52)

/-- Nearest binary64 value to a rational: the result of CPython
`float(Decimal(...))` and of float arithmetic producing this exact value. -/
def pyFloat (q : ℚ) : ℚ :=
  if q = 0 then 0
  else if q < 0 then -pyFloatPos (-q) else pyFloatPos q

/-- Python `sum(xs)` over float values: starts from `0` and adds left to
right, each addition rounding to binary64. -/
def pySum (xs : List ℚ) : ℚ :=
  xs.foldl (fun acc x => pyFloat (acc + x)) 0

theorem roundTiesEven_intCast (z : ℤ) : roundTiesEven (z : ℚ) = z := by
  simp [roundTiesEven]

theorem roundTiesEven_natCast (n : ℕ) : roundTiesEven (n : ℚ) = n := by
  simpa using roundTiesEven_intCast (n : ℤ)

/-- `pyFloat` is the identity on naturals below `2^53` (exactly
representable in binary64). -/
theorem pyFloat_natCast (n : ℕ) (h53 : n < 2 ^ 53) : pyFloat (n : ℚ) = n := by
  rcases Nat.eq_zero_or_pos n with h0 | h0
  · subst h0; simp [pyFloat]
  have hq0 : (0:ℚ) < (n:ℚ) := by exact_mod_cast h0
  have hne : (n:ℚ) ≠ 0 := ne_of_gt hq0
  have hnlt : ¬ ((n:ℚ) < 0) := not_lt.mpr (le_of_lt hq0)
  rw [pyFloat, if_neg hne, if_neg hnlt, pyFloatPos]
  have hlog : Int.log 2 ((n:ℚ)) = (Nat.log 2 n : ℤ) := Int.log_natCast 2 n
  set L : ℕ := Nat.log 2 n with hL
  have hL52 : L ≤ 52 := by
    have hne0 : n ≠ 0 := Nat.pos_iff_ne_zero.mp h0
    have := Nat.log_lt_of_lt_pow hne0 h53
    omega
  have hexp : (52:ℤ) - Int.log 2 ((n:ℚ)) = ((52 - L : ℕ) : ℤ) := by
    rw [hlog]; omega
  have hpow : (2:ℚ) ^ ((52:ℤ) - Int.log 2 ((n:ℚ))) = ((2 ^ (52 - L) : ℕ) : ℚ) := by
    rw [hexp, zpow_natCast]; push_cast; ring
  have hprod : (n:ℚ) * (2:ℚ) ^ ((52:ℤ) - Int.log 2 ((n:ℚ)))
      = ((n * 2 ^ (52 - L) : ℕ) : ℚ) := by
    rw [hpow]; push_cast; ring
  rw [hprod, roundTiesEven_natCast]
  have hpow2 : (2:ℚ) ^ (Int.log 2 ((n:ℚ)) - 52) = ((2 ^ (52 - L) : ℕ) : ℚ)⁻¹ := by
    have : (Int.log 2 ((n:ℚ)) - 52) = -(((52 - L : ℕ)) : ℤ) := by rw [hlog]; omega
    rw [this, zpow_neg, zpow_natCast]
    push_cast; ring_nf
  rw [hpow2]
  push_cast
  have h2ne : ((2:ℚ) ^ (52 - L) : ℚ) ≠ 0 := by positivity
  field_simp

/-- Pin the value of `Int.log 2` from a bracketing by powers of two
(used to evaluate `pyFloat` at concrete non-dyadic rationals). -/
theorem intLog2_eq_of (q : ℚ) (e : ℤ) (hq : 0 < q)
    (h1 : (2:ℚ) ^ e ≤ q) (h2 : q < (2:ℚ) ^ (e + 1)) : Int.log 2 q = e := by
  have hb : 1 < 2 := by norm_num
  have hle : e ≤ Int.log 2 q := (Int.zpow_le_iff_le_log hb hq).mp (by exact_mod_cast h1)
  have hlt : Int.log 2 q < e + 1 := (Int.lt_zpow_iff_log_lt hb hq).mp (by exact_mod_cast h2)
  omega

/-! ## Data model (`billing/models.py`) -/

/-- `Lesson.LESSON_STATUS` choices. -/
inductive LessonStatus
  | requested | confirmed | completed | cancelled
  deriving DecidableEq, Repr

/-- `Lesson.LESSON_TYPES` choices. -/
inductive LessonType
  | in_person | online
  deriving DecidableEq, Repr

/-- `Invoice.INVOICE_TYPES` choices. -/
inductive InvoiceType
  | teacher_payment | student_billing
  deriving DecidableEq, Repr

/-- `Invoice.STATUS_CHOICES` choices. -/
inductive InvoiceStatus
  | draft | pending | approved | paid | rejected | overdue
  deriving DecidableEq, Repr

/-- A `Lesson` row.  The model has a single `rate` column (decimal,
default 80.00); `duration` is a bare decimal column (default 1.0) with no
validators.  Foreign keys are embedded as string keys (user emails). -/
structure Lesson where
  teacherKey : String
  studentKey : String
  lesson_type : LessonType := .in_person
  rate : ℚ := 80
  duration : ℚ := 1
  status : LessonStatus := .requested
  scheduledDate : Option ℕ := none
  completedDate : Option ℕ := none
  teacherNotes : String := ""
  deriving DecidableEq, Repr

/-- `Lesson.total_cost`: the exact `Decimal` product `rate * duration` is
converted through CPython `float(...)` before being returned. -/
def Lesson.total_cost (l : Lesson) : ℚ :=
  pyFloat (l.rate * l.duration)

/-- `Lesson.save`: if the stored rate equals the magic default `80.00`
and the teacher (whose current `hourly_rate` is passed in) has a custom
rate, the stored rate is overwritten with the teacher's current rate.
This runs on every save, creation included. -/
def Lesson.save (teacherHourlyRate : ℚ) (l : Lesson) : Lesson :=
  if l.rate = 80 ∧ teacherHourlyRate ≠ 80 then
    { l with rate := teacherHourlyRate }
  else l

/-! ## String utilities for invoice numbering

Python strings are embedded as `List Char` here; CPython string
comparison on the ASCII invoice numbers is the lexicographic order on
code points, which is `List.lt` on `Char`. -/

/-- Python string embedded as a character list. -/
abbrev PyStr := List Char

/-- Decimal digits of `n`, most significant first (`fuel`-structured so
that it reduces in the kernel; `decDigits` supplies enough fuel). -/
def decDigitsAux : ℕ → ℕ → List ℕ
  | 0, _ => []
  | fuel + 1, n => if n < 10 then [n] else decDigitsAux fuel (n / 10) ++ [n % 10]

/-- Decimal digits of `n`, most significant first. -/
def decDigits (n : ℕ) : List ℕ := decDigitsAux (n + 1) n

/-- Python `f"{n:04d}"` for a non-negative `n`: the decimal digits,
left-padded with `'0'` to at least four characters. -/
def pad4 (n : ℕ) : PyStr :=
  let ds := (decDigits n).map Nat.digitChar
  List.replicate (4 - ds.length) '0' ++ ds

/-- Python `int(s)` restricted to the shapes that can reach it here (a
token produced by `str.split('-')`, hence never containing `'-'`): an
optional leading `'+'` followed by a non-empty run of decimal digits
parses to a number, anything else raises (returns `none`). -/
def pyIntNat (s : PyStr) : Option ℕ :=
  let t := if s.head? = some '+' then s.tail else s
  if t ≠ [] ∧ t.all (·.isDigit) then
    some (t.foldl (fun a c => 10 * a + (c.toNat - 48)) 0)
  else none

/-- Python `s.split(sep)` for a single-character separator. -/
def pySplit (sep : Char) : PyStr → List PyStr
  | [] => [[]]
  | c :: rest =>
    if c = sep then [] :: pySplit sep rest
    else
      match pySplit sep rest with
      | [] => [[c]]
      | t :: ts => (c :: t) :: ts

/-- Python `s.split('-')[-1]`: the last `'-'`-separated token. -/
def lastToken (s : PyStr) : PyStr := (pySplit '-' s).getLastD []

/-- Largest element of a list of Python strings in CPython string order:
the first row of `order_by('-invoice_number')`, `none` on an empty
queryset. -/
def maxStr (l : List PyStr) : Option PyStr :=
  l.foldl (fun acc s =>
    match acc with
    | none => some s
    | some m => if m < s then some s else some m) none

/-- The month prefix `f"INV-{year}-{month}"`. -/
def invPref (year month : PyStr) : PyStr :=
  "INV-".data ++ year ++ "-".data ++ month

/-- `Invoice.generate_invoice_number`: builds the month prefix
`INV-{year}-{month}` from the current date, takes the stored invoice
number with the greatest string value among those starting with the
prefix, increments its final `'-'`-separated token (falling back to 1
when the token is not numeric), and starts at 1 when no number matches. -/
def generate_invoice_number (year month : PyStr) (existing : List PyStr) : PyStr :=
  let matching := existing.filter (fun s => (invPref year month).isPrefixOf s)
  let newSeq : ℕ :=
    match maxStr matching with
    | none => 1
    | some last =>
      match pyIntNat (lastToken last) with
      | some n => n + 1
      | none => 1
  invPref year month ++ '-' :: pad4 newSeq

/-! ## Invoice model -/

/-- An `Invoice` row.  `lessons` is the many-to-many lesson set;
`hasPk` records whether the row already has an identity (`self.pk`);
user references are string keys and may be absent. -/
structure Invoice where
  invoiceNumber : Option PyStr := none
  invoiceType : InvoiceType
  lessons : List Lesson := []
  teacher : Option String := none
  student : Option String := none
  totalAmount : ℚ := 0
  paymentBalance : ℚ
  status : InvoiceStatus := .draft
  dueDate : Option ℕ := none
  createdBy : Option String := none
  approvedBy : Option String := none
  approvedAt : Option ℕ := none
  rejectedBy : Option String := none
  rejectedAt : Option ℕ := none
  rejectionReason : String := ""
  notes : String := ""
  lastEditedBy : Option String := none
  lastEditedAt : Option ℕ := none
  hasPk : Bool := false
  deriving DecidableEq, Repr

/-- `Invoice.calculate_payment_balance`: Python `sum` of
`lesson.total_cost()` over every lesson attached to the invoice (no
filtering by status, type, or anything else). -/
def Invoice.calculate_payment_balance (inv : Invoice) : ℚ :=
  pySum (inv.lessons.map Lesson.total_cost)

/-- `Invoice.can_be_edited`: status is `draft` or `pending`. -/
def Invoice.can_be_edited (inv : Invoice) : Bool :=
  inv.status = .draft || inv.status = .pending

/-- Context needed by `Invoice.save`: the current date's year and month
(for the number prefix) and the invoice numbers already stored. -/
structure SaveCtx where
  year : PyStr
  month : PyStr
  existing : List PyStr
  deriving Repr

/-- First step of `Invoice.save`: generate the invoice number when none
is set (`if not self.invoice_number`, so `None` and the empty string
both trigger generation). -/
def Invoice.assignNumber (ctx : SaveCtx) (inv : Invoice) : Invoice :=
  if inv.invoiceNumber = none ∨ inv.invoiceNumber = some [] then
    { inv with invoiceNumber := some (generate_invoice_number ctx.year ctx.month ctx.existing) }
  else inv

/-- Second step of `Invoice.save`: clear the reference that contradicts
the invoice type (`student` for teacher-payment invoices, else
`teacher` for student-billing invoices). -/
def Invoice.syncRefs (inv : Invoice) : Invoice :=
  if inv.invoiceType = .teacher_payment ∧ inv.student.isSome then
    { inv with student := none }
  else if inv.invoiceType = .student_billing ∧ inv.teacher.isSome then
    { inv with teacher := none }
  else inv

/-- Third step of `Invoice.save`: when the row already has an identity,
recompute `payment_balance` and `total_amount` from the attached
lessons — with no editability check. -/
def Invoice.recompute (inv : Invoice) : Invoice :=
  if inv.hasPk then
    { inv with paymentBalance := inv.calculate_payment_balance,
               totalAmount := inv.calculate_payment_balance }
  else inv

/-- `Invoice.save`: number generation, reference syncing, then balance
recomputation, in the order of the Python method. -/
def Invoice.save (ctx : SaveCtx) (inv : Invoice) : Invoice :=
  Invoice.recompute (Invoice.syncRefs (Invoice.assignNumber ctx inv))

/-! ## Management endpoints (`billing/views.py`) -/

/-- The status strings accepted by `management_update_invoice_status`
(`dict(Invoice.STATUS_CHOICES)` membership). -/
def statusOfString : String → Option InvoiceStatus
  | "draft" => some .draft
  | "pending" => some .pending
  | "approved" => some .approved
  | "paid" => some .paid
  | "rejected" => some .rejected
  | "overdue" => some .overdue
  | _ => none

/-- `approve_teacher_invoice`: the queryset lookup also filters on
`invoice_type='teacher_payment'` (a miss is a 404); the invoice is then
set to `approved` with `approved_by`/`approved_at` recorded and saved —
with no check of the current status. -/
def approve_teacher_invoice (user : String) (now : ℕ) (ctx : SaveCtx)
    (inv : Invoice) : Except String Invoice :=
  if inv.invoiceType ≠ .teacher_payment then
    .error "Invoice not found"
  else
    .ok (Invoice.save ctx
      { inv with status := .approved, approvedBy := some user, approvedAt := some now })

/-- `management_update_invoice_status`: rejects a status string outside
`STATUS_CHOICES`, otherwise stores it unconditionally (recording
approval fields when the new status is `approved`) — no transition
check against the current status. -/
def management_update_invoice_status (user : String) (now : ℕ) (newStatus : String)
    (ctx : SaveCtx) (inv : Invoice) : Except String Invoice :=
  match statusOfString newStatus with
  | none => .error "Invalid status"
  | some st =>
    let inv := { inv with status := st, lastEditedBy := some user, lastEditedAt := some now }
    let inv :=
      if st = .approved then
        { inv with approvedBy := some user, approvedAt := some now }
      else inv
    .ok (Invoice.save ctx inv)

/-- Python `str.strip()` (whitespace removal on both ends). -/
def pyStrip (s : String) : String :=
  String.mk (((s.data.dropWhile Char.isWhitespace).reverse.dropWhile
    Char.isWhitespace).reverse)

/-- `management_reject_invoice`: requires a non-blank
`rejection_reason` and a current status of `pending` or `draft`;
otherwise stamps the rejection fields and saves. -/
def management_reject_invoice (user : String) (now : ℕ) (reason : String)
    (ctx : SaveCtx) (inv : Invoice) : Except String Invoice :=
  if pyStrip reason = "" then
    .error "Rejection reason is required"
  else if inv.status ≠ .pending ∧ inv.status ≠ .draft then
    .error "Only pending or draft invoices can be rejected"
  else
    .ok (Invoice.save ctx
      { inv with status := .rejected, rejectedBy := some user, rejectedAt := some now,
                 rejectionReason := pyStrip reason })

/-- The body of `management_recalculate_invoice` behind its editability
guard: re-derive `payment_balance` from the current lesson set and
stamp the edit-tracking fields. -/
def Invoice.recalcUpdate (inv : Invoice) (user : String) (now : ℕ) : Invoice :=
  { inv with paymentBalance := inv.calculate_payment_balance,
             lastEditedBy := some user, lastEditedAt := some now }

/-- `management_recalculate_invoice`: fails on a non-editable invoice
with an invoice-not-editable error and changes nothing; otherwise
re-derives `payment_balance` from the current lesson set, stamps the
edit-tracking fields and saves. -/
def management_recalculate_invoice (user : String) (now : ℕ) (ctx : SaveCtx)
    (inv : Invoice) : Except String Invoice :=
  if ¬ inv.can_be_edited then
    .error "This invoice cannot be recalculated"
  else
    .ok (Invoice.save ctx (inv.recalcUpdate user now))

/-- `management_update_invoice` (content edits, here just the notes
field as representative mutable content): fails on a non-editable
invoice with an invoice-not-editable error and changes nothing;
otherwise records the edit. -/
def management_update_invoice (user : String) (now : ℕ) (newNotes : String)
    (ctx : SaveCtx) (inv : Invoice) : Except String Invoice :=
  if ¬ inv.can_be_edited then
    .error "This invoice cannot be edited"
  else
    .ok (Invoice.save ctx
      { inv with notes := newNotes,
                 lastEditedBy := some user, lastEditedAt := some now })

/-! ## Submission orchestrator (`submit_lessons_for_invoice`) -/

/-- The submitting teacher: their user key and current `hourly_rate`. -/
structure TeacherCtx where
  key : String
  hourly_rate : ℚ
  deriving DecidableEq, Repr

/-- One entry of the submitted `lessons` array. -/
structure LessonEntry where
  student_name : String
  student_email : Option String := none
  scheduled_date : Option ℕ := none
  duration : Option ℚ := none
  rate : Option ℚ := none
  teacher_notes : String := ""
  deriving DecidableEq, Repr

/-- Placeholder email synthesized for a student given only by name:
`student_name.lower().replace(' ', '.') + "@temp.com"`. -/
def tempEmail (name : String) : String :=
  String.mk ((name.data.map Char.toLower).map (fun c => if c = ' ' then '.' else c))
    ++ "@temp.com"

/-- The student key an entry resolves to: the provided email when
truthy, otherwise the synthesized placeholder email
(`get_or_create` then yields one student row per distinct key). -/
def studentKeyOf (e : LessonEntry) : String :=
  match e.student_email with
  | some em => if em = "" then tempEmail e.student_name else em
  | none => tempEmail e.student_name

/-- `Lesson.objects.create(...)` inside the submission loop: defaults
`duration` to 1.0 and `rate` to the teacher's hourly rate, marks the
lesson completed, and runs `Lesson.save` (hence the magic-default rate
re-resolution). No validation of `duration` happens anywhere on this
path. -/
def mkLesson (teacher : TeacherCtx) (now : ℕ) (e : LessonEntry) : Lesson :=
  Lesson.save teacher.hourly_rate
    { teacherKey := teacher.key
      studentKey := studentKeyOf e
      scheduledDate := some (e.scheduled_date.getD now)
      duration := e.duration.getD 1
      rate := e.rate.getD teacher.hourly_rate
      status := .completed
      completedDate := some now
      teacherNotes := e.teacher_notes }

/-- Distinct elements of a list in first-occurrence order — the key
order of the `defaultdict` grouping lessons by student. -/
def distinctAux : List String → List String → List String
  | [], _ => []
  | x :: xs, seen =>
    if x ∈ seen then distinctAux xs seen
    else x :: distinctAux xs (x :: seen)

/-- Distinct elements of a list in first-occurrence order. -/
def pyDistinct (l : List String) : List String := distinctAux l []

/-- `Invoice.objects.create(...)`: the first save of a row that does not
yet have an identity (so the invoice number is generated and the
mismatched reference cleared, but the balance is not recomputed), after
which the row has an identity and its number is part of the stored set. -/
def allocInvoice (ctx : SaveCtx) (inv : Invoice) : Invoice × SaveCtx :=
  let saved := { Invoice.save ctx inv with hasPk := true }
  (saved, { ctx with existing := ctx.existing ++ [saved.invoiceNumber.getD []] })

/-- The per-student invoice loop of `submit_lessons_for_invoice`: for
each distinct student key, a `student_billing` invoice in status
`pending`, due in 14 days, whose balance is the float sum of that
student's lesson costs, with exactly that student's lessons attached. -/
def mkStudentInvoices (created : List Lesson) (creator : String) (now : ℕ) :
    List String → SaveCtx → List Invoice
  | [], _ => []
  | k :: ks, ctx =>
    let ls := created.filter (fun l => l.studentKey = k)
    let t := pySum (ls.map Lesson.total_cost)
    let (inv, ctx2) := allocInvoice ctx
      { invoiceType := .student_billing
        student := some k
        status := .pending
        dueDate := some (now + 14)
        createdBy := some creator
        paymentBalance := t
        totalAmount := t }
    { inv with lessons := ls } :: mkStudentInvoices created creator now ks ctx2

/-- What `submit_lessons_for_invoice` creates. -/
structure SubmitResult where
  lessonsCreated : List Lesson
  teacherInvoice : Invoice
  studentInvoices : List Invoice
  deriving DecidableEq, Repr

/-- The teacher-payment invoice as first created (balance 0, no lessons
attached yet, status `pending`, due in 14 days unless given). -/
def teacherInvoiceInit (teacher : TeacherCtx) (now : ℕ) (dueDate : Option ℕ) : Invoice :=
  { invoiceType := .teacher_payment
    teacher := some teacher.key
    status := .pending
    dueDate := some (dueDate.getD (now + 14))
    createdBy := some teacher.key
    paymentBalance := 0 }

/-- The teacher-payment invoice after `lessons.set(created_lessons)`,
the explicit recalculation, and the final `invoice.save()`. -/
def mkTeacherInvoice (teacher : TeacherCtx) (now : ℕ) (ctx : SaveCtx)
    (dueDate : Option ℕ) (created : List Lesson) : Invoice :=
  let inv2 := { (allocInvoice ctx (teacherInvoiceInit teacher now dueDate)).1 with
    lessons := created }
  Invoice.save (allocInvoice ctx (teacherInvoiceInit teacher now dueDate)).2
    { inv2 with paymentBalance := inv2.calculate_payment_balance,
                totalAmount := inv2.calculate_payment_balance }

/-- The stored-numbers context after the teacher invoice was created. -/
def ctxAfterTeacherInvoice (teacher : TeacherCtx) (now : ℕ) (ctx : SaveCtx)
    (dueDate : Option ℕ) : SaveCtx :=
  (allocInvoice ctx (teacherInvoiceInit teacher now dueDate)).2

/-- `submit_lessons_for_invoice`: an empty batch fails with "No lessons
provided"; otherwise one completed lesson is created per entry, one
`teacher_payment` invoice in status `pending` is created covering all
of them with the recomputed balance, and one `student_billing` invoice
in status `pending` is created per distinct resolved student covering
that student's lessons. -/
def submit_lessons_for_invoice (teacher : TeacherCtx) (now : ℕ) (ctx : SaveCtx)
    (entries : List LessonEntry) (dueDate : Option ℕ) :
    Except String SubmitResult :=
  if entries = [] then .error "No lessons provided"
  else
    let created := entries.map (mkLesson teacher now)
    .ok ⟨created,
         mkTeacherInvoice teacher now ctx dueDate created,
         mkStudentInvoices created teacher.key now
           (pyDistinct (created.map Lesson.studentKey))
           (ctxAfterTeacherInvoice teacher now ctx dueDate)⟩

/-! ## Structural facts about `Invoice.save` -/

theorem Invoice.save_invoiceType (ctx : SaveCtx) (inv : Invoice) :
    (Invoice.save ctx inv).invoiceType = inv.invoiceType := by
  unfold Invoice.save Invoice.recompute Invoice.syncRefs Invoice.assignNumber
  split_ifs <;> rfl

theorem Invoice.save_status (ctx : SaveCtx) (inv : Invoice) :
    (Invoice.save ctx inv).status = inv.status := by
  unfold Invoice.save Invoice.recompute Invoice.syncRefs Invoice.assignNumber
  split_ifs <;> rfl

theorem Invoice.save_lessons (ctx : SaveCtx) (inv : Invoice) :
    (Invoice.save ctx inv).lessons = inv.lessons := by
  unfold Invoice.save Invoice.recompute Invoice.syncRefs Invoice.assignNumber
  split_ifs <;> rfl

theorem Invoice.save_approvedBy (ctx : SaveCtx) (inv : Invoice) :
    (Invoice.save ctx inv).approvedBy = inv.approvedBy := by
  unfold Invoice.save Invoice.recompute Invoice.syncRefs Invoice.assignNumber
  split_ifs <;> rfl

theorem Invoice.save_approvedAt (ctx : SaveCtx) (inv : Invoice) :
    (Invoice.save ctx inv).approvedAt = inv.approvedAt := by
  unfold Invoice.save Invoice.recompute Invoice.syncRefs Invoice.assignNumber
  split_ifs <;> rfl

theorem Invoice.save_hasPk (ctx : SaveCtx) (inv : Invoice) :
    (Invoice.save ctx inv).hasPk = inv.hasPk := by
  unfold Invoice.save Invoice.recompute Invoice.syncRefs Invoice.assignNumber
  split_ifs <;> rfl

/-- The balance only depends on the lesson set. -/
theorem Invoice.balance_congr (inv inv2 : Invoice) (h : inv2.lessons = inv.lessons) :
    inv2.calculate_payment_balance = inv.calculate_payment_balance := by
  unfold Invoice.calculate_payment_balance
  rw [h]

/-- On a row that already has an identity, `Invoice.save` overwrites
`payment_balance` (and `total_amount`) with the recomputed sum, whatever
the status. -/
theorem Invoice.save_recomputes (ctx : SaveCtx) (inv : Invoice) (h : inv.hasPk = true) :
    (Invoice.save ctx inv).paymentBalance = inv.calculate_payment_balance ∧
    (Invoice.save ctx inv).totalAmount = inv.calculate_payment_balance := by
  have hb : (Invoice.syncRefs (Invoice.assignNumber ctx inv)).calculate_payment_balance
      = inv.calculate_payment_balance := by
    apply Invoice.balance_congr
    unfold Invoice.syncRefs Invoice.assignNumber
    split_ifs <;> rfl
  have hpk : (Invoice.syncRefs (Invoice.assignNumber ctx inv)).hasPk = true := by
    unfold Invoice.syncRefs Invoice.assignNumber
    split_ifs <;> exact h
  unfold Invoice.save Invoice.recompute
  rw [hpk]
  simp [hb]

/-! ## Concrete evaluation helpers -/

/-- `pyFloat` fixes any value equal to a natural below `2^53`. -/
theorem pyFloat_fix (q : ℚ) (n : ℕ) (hq : q = (n : ℚ)) (h53 : n < 2 ^ 53) :
    pyFloat q = q := by
  rw [hq, pyFloat_natCast n h53]

/-- Concrete rows shared by several evaluations: a completed lesson at
rate 50.00 for 1.0 hours. -/
def lesson50 : Lesson :=
  { teacherKey := "teacher@x", studentKey := "student@x",
    rate := 50, duration := 1, status := .completed }

theorem lesson50_total_cost : lesson50.total_cost = 50 := by
  unfold Lesson.total_cost lesson50
  have h : (50:ℚ) * 1 = 50 := by norm_num
  rw [h]
  exact pyFloat_fix 50 50 (by norm_num) (by norm_num)

theorem pySum_fifty : pySum [(50 : ℚ)] = 50 := by
  unfold pySum
  simp only [List.foldl_cons, List.foldl_nil, zero_add]
  exact pyFloat_fix _ 50 (by norm_num) (by norm_num)

/-- A `student_billing` invoice holding exactly `lesson50`. -/
def studentInvoice50 : Invoice :=
  { invoiceNumber := some "INV-2026-10-0002".data, invoiceType := .student_billing,
    student := some "student@x", paymentBalance := 0, lessons := [lesson50], hasPk := true }

/-- A `teacher_payment` invoice holding exactly `lesson50`. -/
def teacherInvoice50 : Invoice :=
  { invoiceNumber := some "INV-2026-10-0001".data, invoiceType := .teacher_payment,
    teacher := some "teacher@x", paymentBalance := 0, lessons := [lesson50], hasPk := true }

/-! ## Claim C10 -/

/-- Claim C10: `calculate_payment_balance` sums the per-lesson cost over
every lesson attached to the invoice regardless of each lesson's status
or lesson type: reassigning statuses (for example to `cancelled` or
`requested`) and lesson types arbitrarily leaves the balance unchanged,
so an attached cancelled or merely requested lesson still contributes
its full rate × duration cost. -/
theorem C10_balance_counts_every_lesson (inv : Invoice)
    (f : Lesson → LessonStatus) (g : Lesson → LessonType) :
    inv.calculate_payment_balance = pySum (inv.lessons.map Lesson.total_cost) ∧
    Invoice.calculate_payment_balance
        { inv with lessons :=
            inv.lessons.map (fun l => { l with status := f l, lesson_type := g l }) }
      = inv.calculate_payment_balance := by
  constructor
  · rfl
  · unfold Invoice.calculate_payment_balance
    simp only [List.map_map]
    rfl

/-! ## Claim C1 -/

/-- Claim C1 (refuted evaluation): the `Lesson` model has a single
`rate` column and `calculate_payment_balance` ignores the invoice type,
so a lesson whose stored rate is 50.00 (its teacher-side rate) with
duration 1.0 contributes 50.00 to a `student_billing` invoice exactly as
to a `teacher_payment` invoice — there is no student-side rate, and the
claimed student-invoice balance of 100.00 is not produced. -/
theorem C1_single_rate_balance_eval :
    studentInvoice50.calculate_payment_balance = 50 ∧
    teacherInvoice50.calculate_payment_balance = 50 ∧
    studentInvoice50.calculate_payment_balance ≠ 100 := by
  have hs : studentInvoice50.calculate_payment_balance = 50 := by
    unfold Invoice.calculate_payment_balance studentInvoice50
    simp only [List.map_cons, List.map_nil, lesson50_total_cost]
    exact pySum_fifty
  have ht : teacherInvoice50.calculate_payment_balance = 50 := by
    unfold Invoice.calculate_payment_balance teacherInvoice50
    simp only [List.map_cons, List.map_nil, lesson50_total_cost]
    exact pySum_fifty
  refine ⟨hs, ht, ?_⟩
  rw [hs]
  norm_num

/-! ## Claim C2 -/

/-- A lesson at rate 0.10 (a valid two-decimal rate) for 1.0 hours. -/
def lessonTenCents : Lesson :=
  { teacherKey := "teacher@x", studentKey := "student@x",
    rate := 1/10, duration := 1, status := .completed }

/-- Claim C2 (refuted evaluation): `total_cost` converts the exact
`Decimal` product through CPython `float(...)`, so for rate 0.10 and
duration 1.0 it returns the binary64 value 7205759403792794 / 2^56,
which differs from the exact decimal product 0.10. -/
theorem C2_total_cost_rounds_through_float :
    lessonTenCents.total_cost
        = (7205759403792794 : ℚ) * 2 ^ ((-56 : ℤ)) ∧
    lessonTenCents.total_cost ≠ lessonTenCents.rate * lessonTenCents.duration := by
  have hval : lessonTenCents.total_cost = (7205759403792794 : ℚ) * 2 ^ ((-56 : ℤ)) := by
    unfold Lesson.total_cost lessonTenCents
    have harg : ((1:ℚ)/10) * 1 = 1/10 := by norm_num
    simp only [harg]
    have hlog : Int.log 2 ((1:ℚ)/10) = -4 :=
      intLog2_eq_of _ (-4) (by norm_num) (by norm_num) (by norm_num)
    rw [pyFloat, if_neg (by norm_num), if_neg (by norm_num), pyFloatPos]
    rw [hlog]
    have hexp : ((52:ℤ) - (-4)) = (56:ℤ) := by norm_num
    rw [hexp]
    have hfl : ⌊((1:ℚ)/10) * 2 ^ ((56:ℤ))⌋ = 7205759403792793 := by
      rw [Int.floor_eq_iff]
      constructor <;> norm_num
    have hr : roundTiesEven (((1:ℚ)/10) * 2 ^ ((56:ℤ))) = 7205759403792794 := by
      unfold roundTiesEven
      rw [hfl]
      rw [if_neg (by norm_num), if_pos (by norm_num)]
      norm_num
    rw [hr]
    norm_num
  refine ⟨hval, ?_⟩
  rw [hval]
  unfold lessonTenCents
  norm_num

/-! ## Claim C3 -/

/-- Claim C3 (counterexample): a lesson created with the (non-null)
stored rate 80.00 does not keep its rate across a later save once the
teacher's `hourly_rate` has been changed to 90.00 — `Lesson.save`
re-resolves the rate through the magic-default comparison on every
save, so the stored rate becomes 90.00. -/
theorem C3_rate_locking_cex :
    (Lesson.save 90
        { teacherKey := "teacher@x", studentKey := "student@x",
          rate := 80, duration := 1 }).rate ≠ (80 : ℚ) := by
  unfold Lesson.save
  rw [if_pos (by norm_num)]
  norm_num

/-- Claim C3 (amended): rate locking holds only for lessons whose
stored rate differs from the magic default 80.00; a stored rate equal
to 80.00 is re-resolved on every save to the teacher's current
`hourly_rate` whenever that differs from 80.00 (so a lesson created
with the unset default picks up the teacher's current rate, and keeps
being re-resolved on later saves). `GlobalRateSettings` does not exist
in this model layer. Other fields are untouched by save. -/
theorem C3_rate_resolution_amended (l : Lesson) (h : ℚ) :
    (l.rate ≠ 80 → (Lesson.save h l).rate = l.rate) ∧
    (l.rate = 80 → h ≠ 80 → (Lesson.save h l).rate = h) ∧
    (l.rate = 80 → h = 80 → (Lesson.save h l).rate = 80) ∧
    (Lesson.save h l).duration = l.duration ∧
    (Lesson.save h l).status = l.status ∧
    (Lesson.save h l).studentKey = l.studentKey := by
  unfold Lesson.save
  split_ifs with hc
  · obtain ⟨h80, hne⟩ := hc
    refine ⟨fun hr => absurd h80 hr, fun _ _ => rfl, fun _ h8 => absurd h8 hne, rfl, rfl, rfl⟩
  · refine ⟨fun _ => rfl, ?_, fun h80 _ => h80, rfl, rfl, rfl⟩
    intro h80 hne
    exact absurd ⟨h80, hne⟩ hc

/-- Claim C3 (witness): a lesson stored at rate 95.00 keeps that rate
when saved after the teacher's rate changed to 90.00. -/
theorem C3_rate_resolution_witness :
    ((95 : ℚ) ≠ 80) ∧
    (Lesson.save 90
        { teacherKey := "teacher@x", studentKey := "student@x",
          rate := 95, duration := 1 }).rate = 95 := by
  constructor
  · norm_num
  · exact (C3_rate_resolution_amended
      { teacherKey := "teacher@x", studentKey := "student@x",
        rate := 95, duration := 1 } 90).1 (by norm_num)

/-! ## Claim C4 -/

/-- A `SaveCtx` with no stored invoice numbers, October 2026. -/
def ctx0 : SaveCtx := { year := "2026".data, month := "10".data, existing := [] }

/-- An approved (locked) invoice whose stored balance 0 disagrees with
its attached lesson's cost of 50. -/
def lockedInvoice : Invoice :=
  { invoiceNumber := some "INV-2026-10-0001".data, invoiceType := .teacher_payment,
    teacher := some "teacher@x", paymentBalance := 0, totalAmount := 0,
    status := .approved, lessons := [lesson50], hasPk := true }

theorem lockedInvoice_balance : lockedInvoice.calculate_payment_balance = 50 := by
  unfold Invoice.calculate_payment_balance lockedInvoice
  simp only [List.map_cons, List.map_nil, lesson50_total_cost]
  exact pySum_fifty

/-- Claim C4 (counterexample): saving an invoice with an identity
recomputes `payment_balance` even when the invoice is not editable —
here an `approved` invoice with stored balance 0 has its balance
overwritten to 50 by a plain save, so the recomputation is not limited
to editable states and a locked invoice's fields do not stay
unchanged. -/
theorem C4_locked_save_recomputes_cex :
    lockedInvoice.status = .approved ∧
    lockedInvoice.can_be_edited = false ∧
    (Invoice.save ctx0 lockedInvoice).paymentBalance ≠ lockedInvoice.paymentBalance := by
  refine ⟨rfl, rfl, ?_⟩
  rw [(Invoice.save_recomputes ctx0 lockedInvoice rfl).1, lockedInvoice_balance]
  unfold lockedInvoice
  norm_num

/-- Claim C4 (amended): `Invoice.save` recomputes and overwrites
`payment_balance`/`total_amount` whenever the invoice already has an
identity, regardless of its status; the editability rule is enforced
only by the management endpoints, which fail with an
invoice-not-editable error (and change nothing) when the status is not
`draft` or `pending`, and recalculate successfully when it is. -/
theorem C4_recalculation_amended (inv : Invoice) (ctx : SaveCtx)
    (u : String) (t : ℕ) (s : String) :
    (inv.hasPk = true →
      (Invoice.save ctx inv).paymentBalance = inv.calculate_payment_balance ∧
      (Invoice.save ctx inv).totalAmount = inv.calculate_payment_balance) ∧
    (inv.can_be_edited = false →
      management_recalculate_invoice u t ctx inv
        = .error "This invoice cannot be recalculated" ∧
      management_update_invoice u t s ctx inv
        = .error "This invoice cannot be edited") ∧
    (inv.can_be_edited = true → inv.hasPk = true →
      ∃ out, management_recalculate_invoice u t ctx inv = .ok out ∧
        out.paymentBalance = inv.calculate_payment_balance) := by
  refine ⟨fun h => Invoice.save_recomputes ctx inv h, ?_, ?_⟩
  · intro hed
    unfold management_recalculate_invoice management_update_invoice
    rw [if_pos (by simp [hed]), if_pos (by simp [hed])]
    exact ⟨rfl, rfl⟩
  · intro hed hpk
    unfold management_recalculate_invoice
    rw [if_neg (by simp [hed])]
    refine ⟨_, rfl, ?_⟩
    have hpk2 : (Invoice.recalcUpdate inv u t).hasPk = true := hpk
    rw [(Invoice.save_recomputes ctx _ hpk2).1]
    exact Invoice.balance_congr _ _ rfl

/-- Claim C4 (witness): the recalculate endpoint refuses the locked
(approved) invoice with the invoice-not-editable error. -/
theorem C4_recalculation_witness :
    lockedInvoice.can_be_edited = false ∧
    management_recalculate_invoice "manager@x" 7 ctx0 lockedInvoice
      = .error "This invoice cannot be recalculated" := by
  constructor
  · rfl
  · exact ((C4_recalculation_amended lockedInvoice ctx0 "manager@x" 7 "").2.1 rfl).1

/-! ## Claim C5 -/

/-- A rejected teacher-payment invoice with no lessons. -/
def rejectedInvoice : Invoice :=
  { invoiceNumber := some "INV-2026-10-0003".data, invoiceType := .teacher_payment,
    teacher := some "teacher@x", paymentBalance := 0, status := .rejected,
    lessons := [], hasPk := true }

/-- Claim C5 (counterexample): approving an invoice that is already
`rejected` does not fail — `approve_teacher_invoice` succeeds and moves
the invoice to `approved`, so the status does not stay unchanged and
the illegal transition is silently accepted. -/
theorem C5_approve_rejected_cex :
    rejectedInvoice.status = .rejected ∧
    (approve_teacher_invoice "manager@x" 5 ctx0 rejectedInvoice).toOption.map
        Invoice.status = some .approved := by decide

/-- Claim C5 (amended): approving — via `approve_teacher_invoice` or
`management_update_invoice_status` — sets the status to `approved` and
records `approved_by`/`approved_at` whatever the invoice's current
status is; no state-conflict check exists for approval, so approving a
rejected invoice succeeds. Only the rejection endpoint enforces state:
it requires a non-blank reason and a current status of `pending` or
`draft`. From `pending`, approval behaves exactly as the claim's
positive half states. -/
theorem C5_approval_unchecked_amended (inv : Invoice) (u : String) (t : ℕ) (ctx : SaveCtx) :
    (inv.invoiceType = .teacher_payment →
      ∃ out, approve_teacher_invoice u t ctx inv = .ok out ∧
        out.status = .approved ∧ out.approvedBy = some u ∧ out.approvedAt = some t) ∧
    (∃ out, management_update_invoice_status u t "approved" ctx inv = .ok out ∧
      out.status = .approved ∧ out.approvedBy = some u ∧ out.approvedAt = some t) ∧
    (management_reject_invoice u t "" ctx inv = .error "Rejection reason is required") ∧
    (inv.status ≠ .pending → inv.status ≠ .draft →
      management_reject_invoice u t "bad totals" ctx inv
        = .error "Only pending or draft invoices can be rejected") := by
  refine ⟨?_, ?_, ?_, ?_⟩
  · intro htype
    unfold approve_teacher_invoice
    rw [if_neg (by simp [htype])]
    exact ⟨_, rfl, by rw [Invoice.save_status], by rw [Invoice.save_approvedBy],
      by rw [Invoice.save_approvedAt]⟩
  · have hst : statusOfString "approved" = some .approved := rfl
    unfold management_update_invoice_status
    rw [hst]
    refine ⟨_, rfl, ?_, ?_, ?_⟩
    · rw [Invoice.save_status]; simp
    · rw [Invoice.save_approvedBy]; simp
    · rw [Invoice.save_approvedAt]; simp
  · unfold management_reject_invoice
    rw [if_pos (by decide)]
  · intro hp hd
    unfold management_reject_invoice
    rw [if_neg (by decide), if_pos ⟨hp, hd⟩]

/-- Claim C5 (witness): approving the concrete rejected invoice
succeeds with the approval fields stamped. -/
theorem C5_approval_unchecked_witness :
    rejectedInvoice.invoiceType = .teacher_payment ∧
    (∃ out, approve_teacher_invoice "manager@x" 5 ctx0 rejectedInvoice = .ok out ∧
      out.status = .approved ∧ out.approvedBy = some "manager@x" ∧
      out.approvedAt = some 5) := by
  exact ⟨rfl,
    (C5_approval_unchecked_amended rejectedInvoice "manager@x" 5 ctx0).1 rfl⟩

/-! ## Claim C9 -/

theorem Invoice.assignNumber_student (ctx : SaveCtx) (inv : Invoice) :
    (Invoice.assignNumber ctx inv).student = inv.student := by
  unfold Invoice.assignNumber
  split_ifs <;> rfl

theorem Invoice.assignNumber_teacher (ctx : SaveCtx) (inv : Invoice) :
    (Invoice.assignNumber ctx inv).teacher = inv.teacher := by
  unfold Invoice.assignNumber
  split_ifs <;> rfl

theorem Invoice.assignNumber_invoiceType (ctx : SaveCtx) (inv : Invoice) :
    (Invoice.assignNumber ctx inv).invoiceType = inv.invoiceType := by
  unfold Invoice.assignNumber
  split_ifs <;> rfl

theorem Invoice.recompute_student (inv : Invoice) :
    (Invoice.recompute inv).student = inv.student := by
  unfold Invoice.recompute
  split_ifs <;> rfl

theorem Invoice.recompute_teacher (inv : Invoice) :
    (Invoice.recompute inv).teacher = inv.teacher := by
  unfold Invoice.recompute
  split_ifs <;> rfl

theorem Invoice.syncRefs_student (inv : Invoice) :
    (Invoice.syncRefs inv).student
      = if inv.invoiceType = .teacher_payment then none else inv.student := by
  unfold Invoice.syncRefs
  cases htype : inv.invoiceType <;> split_ifs <;> simp_all

theorem Invoice.syncRefs_teacher (inv : Invoice) :
    (Invoice.syncRefs inv).teacher
      = if inv.invoiceType = .teacher_payment then inv.teacher else none := by
  unfold Invoice.syncRefs
  cases htype : inv.invoiceType <;> split_ifs <;> simp_all

theorem Invoice.save_student_eq (ctx : SaveCtx) (inv : Invoice) :
    (Invoice.save ctx inv).student
      = if inv.invoiceType = .teacher_payment then none else inv.student := by
  unfold Invoice.save
  rw [Invoice.recompute_student, Invoice.syncRefs_student,
    Invoice.assignNumber_student, Invoice.assignNumber_invoiceType]

theorem Invoice.save_teacher_eq (ctx : SaveCtx) (inv : Invoice) :
    (Invoice.save ctx inv).teacher
      = if inv.invoiceType = .teacher_payment then inv.teacher else none := by
  unfold Invoice.save
  rw [Invoice.recompute_teacher, Invoice.syncRefs_teacher,
    Invoice.assignNumber_teacher, Invoice.assignNumber_invoiceType]

/-- An invoice typed `teacher_payment` whose teacher reference is
missing while a student reference is present. -/
def orphanInvoice : Invoice :=
  { invoiceNumber := some "INV-2026-10-0004".data, invoiceType := .teacher_payment,
    teacher := none, student := some "student@x", paymentBalance := 0,
    lessons := [], hasPk := true }

/-- Claim C9 (counterexample): saving a `teacher_payment` invoice that
has only a student reference clears the student and sets nothing else,
leaving an invoice with **no** reference set — "exactly one of the
teacher and student references is set" fails after save. -/
theorem C9_exactly_one_ref_cex :
    ¬ (((Invoice.save ctx0 orphanInvoice).invoiceType = .teacher_payment ∧
        (Invoice.save ctx0 orphanInvoice).teacher.isSome = true ∧
        (Invoice.save ctx0 orphanInvoice).student = none) ∨
       ((Invoice.save ctx0 orphanInvoice).invoiceType = .student_billing ∧
        (Invoice.save ctx0 orphanInvoice).student.isSome = true ∧
        (Invoice.save ctx0 orphanInvoice).teacher = none)) := by decide

/-- Claim C9 (amended): save enforces only mutual exclusivity, not
presence: after save a `teacher_payment` invoice has no student
reference (its teacher reference passing through unchanged) and a
`student_billing` invoice has no teacher reference (its student
reference passing through unchanged). At most — not exactly — one
reference matching the type remains set. -/
theorem C9_at_most_one_ref_amended (inv : Invoice) (ctx : SaveCtx) :
    ((Invoice.save ctx inv).student
      = if inv.invoiceType = .teacher_payment then none else inv.student) ∧
    ((Invoice.save ctx inv).teacher
      = if inv.invoiceType = .teacher_payment then inv.teacher else none) :=
  ⟨Invoice.save_student_eq ctx inv, Invoice.save_teacher_eq ctx inv⟩

/-! ## Claim C6 -/

/-- The submitting teacher for the concrete batches. -/
def teacher0 : TeacherCtx := { key := "teacher@x", hourly_rate := 80 }

/-- A lesson entry with a duration of 24.01 hours. -/
def entry2401 : LessonEntry :=
  { student_name := "Alice Johnson", duration := some (2401/100) }

theorem Lesson.saveKeepsDuration (h : ℚ) (l : Lesson) :
    (Lesson.save h l).duration = l.duration := by
  unfold Lesson.save
  split_ifs <;> rfl

theorem Lesson.saveKeepsStatus (h : ℚ) (l : Lesson) :
    (Lesson.save h l).status = l.status := by
  unfold Lesson.save
  split_ifs <;> rfl

theorem Lesson.saveKeepsStudentKey (h : ℚ) (l : Lesson) :
    (Lesson.save h l).studentKey = l.studentKey := by
  unfold Lesson.save
  split_ifs <;> rfl

/-- Claim C6 (refuted evaluation): no duration validation exists — the
`duration` column has no validators and `submit_lessons_for_invoice`
passes the submitted value straight into `Lesson.objects.create`, so a
batch whose single entry has duration 24.01 (> 24) is accepted: the
submission succeeds and stores a completed lesson with duration
24.01. -/
theorem C6_duration_unvalidated :
    ∃ r, submit_lessons_for_invoice teacher0 0 ctx0 [entry2401] none = .ok r ∧
      r.lessonsCreated.map Lesson.duration = [2401/100] ∧
      r.lessonsCreated.map Lesson.status = [.completed] ∧
      (24 : ℚ) < 2401/100 := by
  refine ⟨_, rfl, ?_, ?_, by norm_num⟩
  · simp [mkLesson, Lesson.saveKeepsDuration, entry2401]
  · simp [mkLesson, Lesson.saveKeepsStatus]

/-! ## Claim C7 -/

theorem Invoice.assignNumber_balance (ctx : SaveCtx) (inv : Invoice) :
    (Invoice.assignNumber ctx inv).paymentBalance = inv.paymentBalance := by
  unfold Invoice.assignNumber
  split_ifs <;> rfl

theorem Invoice.syncRefs_balance (inv : Invoice) :
    (Invoice.syncRefs inv).paymentBalance = inv.paymentBalance := by
  unfold Invoice.syncRefs
  split_ifs <;> rfl

theorem Invoice.assignNumber_hasPk (ctx : SaveCtx) (inv : Invoice) :
    (Invoice.assignNumber ctx inv).hasPk = inv.hasPk := by
  unfold Invoice.assignNumber
  split_ifs <;> rfl

theorem Invoice.syncRefs_hasPk (inv : Invoice) :
    (Invoice.syncRefs inv).hasPk = inv.hasPk := by
  unfold Invoice.syncRefs
  split_ifs <;> rfl

/-- When the row has no identity yet (`Invoice.objects.create`), save
keeps the balance it was given. -/
theorem Invoice.save_noPk_balance (ctx : SaveCtx) (inv : Invoice)
    (h : inv.hasPk = false) :
    (Invoice.save ctx inv).paymentBalance = inv.paymentBalance := by
  unfold Invoice.save Invoice.recompute
  rw [Invoice.syncRefs_hasPk, Invoice.assignNumber_hasPk, h]
  simp only [Bool.false_eq_true, if_false]
  rw [Invoice.syncRefs_balance, Invoice.assignNumber_balance]

theorem distinctAux_nodup (l : List String) :
    ∀ seen : List String,
      (distinctAux l seen).Nodup ∧ ∀ x ∈ distinctAux l seen, x ∉ seen := by
  induction l with
  | nil => intro seen; simp [distinctAux]
  | cons a l ih =>
    intro seen
    unfold distinctAux
    split_ifs with ha
    · exact ⟨(ih seen).1, (ih seen).2⟩
    · refine ⟨List.nodup_cons.mpr ⟨?_, (ih (a :: seen)).1⟩, ?_⟩
      · intro hmem
        exact absurd (List.mem_cons_self a seen) ((ih (a :: seen)).2 a hmem)
      · intro x hx
        rcases List.mem_cons.mp hx with rfl | hx2
        · exact ha
        · intro hxs
          exact ((ih (a :: seen)).2 x hx2) (List.mem_cons_of_mem a hxs)

/-- The distinct-key list is duplicate-free. -/
theorem pyDistinct_nodup (l : List String) : (pyDistinct l).Nodup :=
  (distinctAux_nodup l []).1

theorem Invoice.assignNumber_total (ctx : SaveCtx) (inv : Invoice) :
    (Invoice.assignNumber ctx inv).totalAmount = inv.totalAmount := by
  unfold Invoice.assignNumber
  split_ifs <;> rfl

theorem Invoice.syncRefs_total (inv : Invoice) :
    (Invoice.syncRefs inv).totalAmount = inv.totalAmount := by
  unfold Invoice.syncRefs
  split_ifs <;> rfl

theorem Invoice.syncRefs_lessons (inv : Invoice) :
    (Invoice.syncRefs inv).lessons = inv.lessons := by
  unfold Invoice.syncRefs
  split_ifs <;> rfl

theorem Invoice.assignNumber_lessons (ctx : SaveCtx) (inv : Invoice) :
    (Invoice.assignNumber ctx inv).lessons = inv.lessons := by
  unfold Invoice.assignNumber
  split_ifs <;> rfl

/-- Hypothesis-free form of the save/balance interaction: the balance
after save is the recomputed sum when the row has an identity, and the
stored value otherwise. -/
theorem Invoice.save_balance_eq (ctx : SaveCtx) (inv : Invoice) :
    (Invoice.save ctx inv).paymentBalance
      = if inv.hasPk then inv.calculate_payment_balance else inv.paymentBalance := by
  cases h : inv.hasPk
  · rw [if_neg (by simp), Invoice.save_noPk_balance ctx inv h]
  · rw [if_pos rfl, (Invoice.save_recomputes ctx inv h).1]

/-- Hypothesis-free form for `total_amount`. -/
theorem Invoice.save_total_eq (ctx : SaveCtx) (inv : Invoice) :
    (Invoice.save ctx inv).totalAmount
      = if inv.hasPk then inv.calculate_payment_balance else inv.totalAmount := by
  cases h : inv.hasPk
  · rw [if_neg (by simp)]
    unfold Invoice.save Invoice.recompute
    rw [Invoice.syncRefs_hasPk, Invoice.assignNumber_hasPk, h]
    simp only [Bool.false_eq_true, if_false]
    rw [Invoice.syncRefs_total, Invoice.assignNumber_total]
  · rw [if_pos rfl, (Invoice.save_recomputes ctx inv h).2]

theorem Invoice.save_dueDate (ctx : SaveCtx) (inv : Invoice) :
    (Invoice.save ctx inv).dueDate = inv.dueDate := by
  unfold Invoice.save Invoice.recompute Invoice.syncRefs Invoice.assignNumber
  split_ifs <;> rfl

/-- Each student invoice in the loop output carries the student key it
was created for, in the order of the key list. -/
theorem mkStudentInvoices_student_map (created : List Lesson) (c : String) (now : ℕ) :
    ∀ (keys : List String) (ctx : SaveCtx),
      (mkStudentInvoices created c now keys ctx).map Invoice.student
        = keys.map some := by
  intro keys
  induction keys with
  | nil => intro ctx; rfl
  | cons k ks ih =>
    intro ctx
    simp only [mkStudentInvoices, allocInvoice, List.map_cons, List.cons.injEq]
    refine ⟨?_, ih _⟩
    rw [Invoice.save_student_eq]
    simp

/-- Field facts for every invoice produced by the per-student loop. -/
theorem mkStudentInvoices_mem (created : List Lesson) (c : String) (now : ℕ) :
    ∀ (keys : List String) (ctx : SaveCtx),
      ∀ si ∈ mkStudentInvoices created c now keys ctx,
        si.invoiceType = .student_billing ∧ si.status = .pending ∧
        si.dueDate = some (now + 14) ∧
        ∃ k, k ∈ keys ∧ si.student = some k ∧
          si.lessons = created.filter (fun l => l.studentKey = k) ∧
          si.paymentBalance = pySum (si.lessons.map Lesson.total_cost) := by
  intro keys
  induction keys with
  | nil => intro ctx si hsi; simp [mkStudentInvoices] at hsi
  | cons k ks ih =>
    intro ctx si hsi
    simp only [mkStudentInvoices, allocInvoice] at hsi
    rcases List.mem_cons.mp hsi with rfl | htail
    · refine ⟨?_, ?_, ?_, k, List.mem_cons_self k ks, ?_, rfl, ?_⟩
      · rw [Invoice.save_invoiceType]
      · rw [Invoice.save_status]
      · rw [Invoice.save_dueDate]
      · rw [Invoice.save_student_eq]
        simp
      · rw [Invoice.save_noPk_balance _ _ rfl]
    · obtain ⟨h1, h2, h3, k2, hk2, h4⟩ := ih _ si htail
      exact ⟨h1, h2, h3, k2, List.mem_cons_of_mem _ hk2, h4⟩

theorem distinctAux_subset :
    ∀ (l seen : List String) (x : String), x ∈ distinctAux l seen → x ∈ l := by
  intro l
  induction l with
  | nil => intro seen x hx; simp [distinctAux] at hx
  | cons a l ih =>
    intro seen x hx
    unfold distinctAux at hx
    split_ifs at hx with ha
    · exact List.mem_cons_of_mem a (ih seen x hx)
    · rcases List.mem_cons.mp hx with rfl | hx2
      · exact List.mem_cons_self x l
      · exact List.mem_cons_of_mem a (ih (a :: seen) x hx2)

theorem pyDistinct_mem (l : List String) (x : String) (h : x ∈ pyDistinct l) : x ∈ l :=
  distinctAux_subset l [] x h

/-- Field facts for the teacher invoice produced by the submission. -/
theorem mkTeacherInvoice_fields (teacher : TeacherCtx) (now : ℕ) (ctx : SaveCtx)
    (dueDate : Option ℕ) (created : List Lesson) :
    (mkTeacherInvoice teacher now ctx dueDate created).invoiceType = .teacher_payment ∧
    (mkTeacherInvoice teacher now ctx dueDate created).status = .pending ∧
    (mkTeacherInvoice teacher now ctx dueDate created).lessons = created ∧
    (mkTeacherInvoice teacher now ctx dueDate created).paymentBalance
      = pySum (created.map Lesson.total_cost) ∧
    (mkTeacherInvoice teacher now ctx dueDate created).totalAmount
      = pySum (created.map Lesson.total_cost) := by
  unfold mkTeacherInvoice
  refine ⟨?_, ?_, ?_, ?_, ?_⟩ <;>
    simp [Invoice.save_invoiceType, Invoice.save_status, Invoice.save_lessons,
      Invoice.save_balance_eq, Invoice.save_total_eq, allocInvoice, teacherInvoiceInit,
      Invoice.calculate_payment_balance]

/-- Claim C7: a non-empty submitted batch creates one completed lesson
per entry; exactly one `teacher_payment` invoice, in status `pending`,
covering all created lessons, whose balance (and total) is the sum of
every lesson's teacher-side cost; and exactly one `student_billing`
invoice per distinct resolved student — their student references
enumerate the distinct student keys without duplication — each in
status `pending`, due in 14 days, covering exactly that student's
lessons and carrying their summed cost. -/
theorem C7_submission_creates_invoices (teacher : TeacherCtx) (now : ℕ) (ctx : SaveCtx)
    (entries : List LessonEntry) (dueDate : Option ℕ) (hne : entries ≠ []) :
    ∃ r, submit_lessons_for_invoice teacher now ctx entries dueDate = .ok r ∧
      r.lessonsCreated.length = entries.length ∧
      (∀ l ∈ r.lessonsCreated, l.status = .completed) ∧
      r.teacherInvoice.invoiceType = .teacher_payment ∧
      r.teacherInvoice.status = .pending ∧
      r.teacherInvoice.lessons = r.lessonsCreated ∧
      r.teacherInvoice.paymentBalance = pySum (r.lessonsCreated.map Lesson.total_cost) ∧
      r.teacherInvoice.totalAmount = r.teacherInvoice.paymentBalance ∧
      r.studentInvoices.map Invoice.student
        = (pyDistinct (r.lessonsCreated.map Lesson.studentKey)).map some ∧
      (r.studentInvoices.map Invoice.student).Nodup ∧
      (∀ si ∈ r.studentInvoices,
        si.invoiceType = .student_billing ∧ si.status = .pending ∧
        si.dueDate = some (now + 14) ∧
        ∃ k, k ∈ r.lessonsCreated.map Lesson.studentKey ∧ si.student = some k ∧
          si.lessons = r.lessonsCreated.filter (fun l => l.studentKey = k) ∧
          si.paymentBalance = pySum (si.lessons.map Lesson.total_cost)) := by
  refine ⟨⟨entries.map (mkLesson teacher now),
      mkTeacherInvoice teacher now ctx dueDate (entries.map (mkLesson teacher now)),
      mkStudentInvoices (entries.map (mkLesson teacher now)) teacher.key now
        (pyDistinct ((entries.map (mkLesson teacher now)).map Lesson.studentKey))
        (ctxAfterTeacherInvoice teacher now ctx dueDate)⟩,
    ?_, ?_, ?_, ?_, ?_, ?_, ?_, ?_, ?_, ?_, ?_⟩
  · unfold submit_lessons_for_invoice
    rw [if_neg hne]
  · exact List.length_map entries _
  · intro l hl
    rcases List.mem_map.mp hl with ⟨e, _, rfl⟩
    rw [mkLesson, Lesson.saveKeepsStatus]
  · exact (mkTeacherInvoice_fields teacher now ctx dueDate _).1
  · exact (mkTeacherInvoice_fields teacher now ctx dueDate _).2.1
  · exact (mkTeacherInvoice_fields teacher now ctx dueDate _).2.2.1
  · exact (mkTeacherInvoice_fields teacher now ctx dueDate _).2.2.2.1
  · rw [(mkTeacherInvoice_fields teacher now ctx dueDate _).2.2.2.1,
      (mkTeacherInvoice_fields teacher now ctx dueDate _).2.2.2.2]
  · exact mkStudentInvoices_student_map _ _ _ _ _
  · rw [mkStudentInvoices_student_map _ _ _ _ _]
    exact (pyDistinct_nodup _).map (Option.some_injective String)
  · intro si hsi
    obtain ⟨h1, h2, h3, k, hk, h4⟩ := mkStudentInvoices_mem _ _ _ _ _ si hsi
    exact ⟨h1, h2, h3, k, pyDistinct_mem _ _ hk, h4⟩

/-- A batch of three lesson entries for two distinct students. -/
def entriesBatch : List LessonEntry :=
  [ { student_name := "Alice", student_email := some "alice@x",
      duration := some 1, rate := some 80 },
    { student_name := "Bob", student_email := some "bob@x",
      duration := some (3/2), rate := some 80 },
    { student_name := "Alice", student_email := some "alice@x",
      duration := some (1/2), rate := some 80 } ]

theorem entriesBatch_ne_nil : entriesBatch ≠ [] := by
  unfold entriesBatch
  exact List.cons_ne_nil _ _

/-- Claim C7 (witness): the guarantees instantiated at a concrete batch
of 3 lessons for 2 distinct students. -/
theorem C7_submission_creates_invoices_witness :
    entriesBatch ≠ [] ∧
    ∃ r, submit_lessons_for_invoice teacher0 0 ctx0 entriesBatch none = .ok r ∧
      r.lessonsCreated.length = entriesBatch.length ∧
      (∀ l ∈ r.lessonsCreated, l.status = .completed) ∧
      r.teacherInvoice.invoiceType = .teacher_payment ∧
      r.teacherInvoice.status = .pending ∧
      r.teacherInvoice.lessons = r.lessonsCreated ∧
      r.teacherInvoice.paymentBalance = pySum (r.lessonsCreated.map Lesson.total_cost) ∧
      r.teacherInvoice.totalAmount = r.teacherInvoice.paymentBalance ∧
      r.studentInvoices.map Invoice.student
        = (pyDistinct (r.lessonsCreated.map Lesson.studentKey)).map some ∧
      (r.studentInvoices.map Invoice.student).Nodup ∧
      (∀ si ∈ r.studentInvoices,
        si.invoiceType = .student_billing ∧ si.status = .pending ∧
        si.dueDate = some (0 + 14) ∧
        ∃ k, k ∈ r.lessonsCreated.map Lesson.studentKey ∧ si.student = some k ∧
          si.lessons = r.lessonsCreated.filter (fun l => l.studentKey = k) ∧
          si.paymentBalance = pySum (si.lessons.map Lesson.total_cost)) :=
  ⟨entriesBatch_ne_nil,
    C7_submission_creates_invoices teacher0 0 ctx0 entriesBatch none entriesBatch_ne_nil⟩

/-! ## Claim C8: facts about splitting, string order and `%04d` -/

theorem pySplit_ne_nil (sep : Char) : ∀ s : PyStr, pySplit sep s ≠ [] := by
  intro s
  cases s with
  | nil => simp [pySplit]
  | cons c rest =>
    unfold pySplit
    split_ifs
    · simp
    · cases h : pySplit sep rest <;> simp

theorem pySplit_nil (sep : Char) : pySplit sep [] = [[]] := rfl

theorem pySplit_cons (sep c : Char) (rest : PyStr) :
    pySplit sep (c :: rest)
      = if c = sep then [] :: pySplit sep rest
        else match pySplit sep rest with
          | [] => [[c]]
          | t :: ts => (c :: t) :: ts := rfl

/-- Splitting distributes over a separator occurrence. -/
theorem pySplit_append (sep : Char) :
    ∀ xs ys : PyStr, pySplit sep (xs ++ sep :: ys) = pySplit sep xs ++ pySplit sep ys := by
  intro xs
  induction xs with
  | nil =>
    intro ys
    rw [List.nil_append, pySplit_cons, if_pos rfl, pySplit_nil]
    rfl
  | cons c xs ih =>
    intro ys
    by_cases hc : c = sep
    · subst hc
      rw [List.cons_append, pySplit_cons, if_pos rfl, ih ys,
        pySplit_cons, if_pos rfl, List.cons_append]
    · rw [List.cons_append, pySplit_cons, if_neg hc, ih ys, pySplit_cons, if_neg hc]
      cases h : pySplit sep xs with
      | nil => exact absurd h (pySplit_ne_nil sep xs)
      | cons u us => rfl

theorem getLastD_of_ne_nil {α : Type} (l : List α) (hl : l ≠ []) (a b : α) :
    l.getLastD a = l.getLastD b := by
  cases l with
  | nil => exact absurd rfl hl
  | cons x xs => rw [List.getLastD_cons, List.getLastD_cons]

theorem getLastD_append_of_ne_nil {α : Type} (l₁ : List α) :
    ∀ (l₂ : List α) (d : α), l₂ ≠ [] → (l₁ ++ l₂).getLastD d = l₂.getLastD d := by
  induction l₁ with
  | nil => intro l₂ d _; rfl
  | cons x xs ih =>
    intro l₂ d h2
    rw [List.cons_append, List.getLastD_cons, ih l₂ x h2,
      getLastD_of_ne_nil l₂ h2 x d]

/-- A separator-free string splits into itself alone. -/
theorem pySplit_no_sep (sep : Char) :
    ∀ t : PyStr, sep ∉ t → pySplit sep t = [t] := by
  intro t
  induction t with
  | nil => intro _; rfl
  | cons c rest ih =>
    intro h
    rw [pySplit_cons,
      if_neg (fun hc => h (by rw [hc]; exact List.mem_cons_self _ _)),
      ih (fun hm => h (List.mem_cons_of_mem c hm))]

/-- The last `'-'`-token of `s ++ '-' :: t` is `t` when `t` is
dash-free. -/
theorem lastToken_append (s t : PyStr) (ht : '-' ∉ t) :
    lastToken (s ++ '-' :: t) = t := by
  unfold lastToken
  rw [pySplit_append '-' s t,
    getLastD_append_of_ne_nil _ _ _ (pySplit_ne_nil '-' t),
    pySplit_no_sep '-' t ht]
  rfl

/-- Strict list order is asymmetric (characters are linearly ordered;
with Mathlib in scope `<` on `List Char` is the lexicographic order). -/
theorem pyStr_lt_asymm (a b : PyStr) (h : a < b) : ¬ b < a :=
  lt_asymm h

/-- Appending a common front preserves strict list order. -/
theorem pyStr_lt_append (p : PyStr) :
    ∀ a b : PyStr, a < b → (p ++ a) < (p ++ b) := by
  induction p with
  | nil => intro a b h; exact h
  | cons c p ih =>
    intro a b h
    exact List.Lex.cons (ih a b h)

theorem maxStr_cons_eq (x : PyStr) (xs : List PyStr) :
    maxStr (x :: xs) = some (xs.foldl (fun m s => if m < s then s else m) x) := by
  show (x :: xs).foldl _ none = _
  rw [List.foldl_cons]
  show xs.foldl _ (some x) = _
  induction xs generalizing x with
  | nil => rfl
  | cons s xs ih =>
    rw [List.foldl_cons, List.foldl_cons]
    show xs.foldl _ (if x < s then some s else some x) = _
    by_cases hxs : x < s
    · rw [if_pos hxs, if_pos hxs, ih s]
    · rw [if_neg hxs, if_neg hxs, ih x]

/-- If `m` is in the list and dominates every element, the fold finds
it. -/
theorem maxStr_eq_of (l : List PyStr) (m : PyStr) (hm : m ∈ l)
    (hub : ∀ x ∈ l, x = m ∨ x < m) : maxStr l = some m := by
  cases l with
  | nil => cases hm
  | cons x xs =>
    rw [maxStr_cons_eq]
    congr 1
    have step : ∀ (ys : List PyStr) (a : PyStr),
        (a = m ∨ a < m) → (∀ y ∈ ys, y = m ∨ y < m) →
        (m = a ∨ m ∈ ys) →
        ys.foldl (fun acc s => if acc < s then s else acc) a = m := by
      intro ys
      induction ys with
      | nil =>
        intro a _ _ hloc
        rcases hloc with h | h
        · exact h.symm
        · cases h
      | cons s ys ih =>
        intro a ha hys hloc
        rw [List.foldl_cons]
        have hs := hys s (List.mem_cons_self s ys)
        have hys2 : ∀ y ∈ ys, y = m ∨ y < m :=
          fun y hy => hys y (List.mem_cons_of_mem s hy)
        by_cases hlt : a < s
        · rw [if_pos hlt]
          refine ih s hs hys2 ?_
          rcases hs with hseq | hslt
          · exact Or.inl hseq.symm
          · rcases hloc with heq | hmem
            · exact absurd (heq.symm ▸ hlt) (pyStr_lt_asymm s m hslt)
            · rcases List.mem_cons.mp hmem with hms | hmys
              · exact Or.inl hms
              · exact Or.inr hmys
        · rw [if_neg hlt]
          refine ih a ha hys2 ?_
          rcases hloc with heq | hmem
          · exact Or.inl heq
          · rcases List.mem_cons.mp hmem with hms | hmys
            · rcases ha with haeq | halt
              · exact Or.inl haeq.symm
              · exact absurd (hms ▸ halt) hlt
            · exact Or.inr hmys
    rcases List.mem_cons.mp hm with heq | hmem
    · exact step xs x (Or.inl heq.symm)
        (fun y hy => hub y (List.mem_cons_of_mem x hy)) (Or.inl heq)
    · exact step xs x (hub x (List.mem_cons_self x xs))
        (fun y hy => hub y (List.mem_cons_of_mem x hy)) (Or.inr hmem)

theorem digitChar_toNat_eq : ∀ d, d < 10 → (Nat.digitChar d).toNat = 48 + d := by decide

theorem digitChar_isDigit : ∀ d, d < 10 → (Nat.digitChar d).isDigit = true := by decide

theorem digitChar_ne_plus : ∀ d, d < 10 → Nat.digitChar d ≠ '+' := by decide

theorem digitChar_ne_dash : ∀ d, d < 10 → Nat.digitChar d ≠ '-' := by decide

theorem digitChar_lt_of_lt :
    ∀ a, a < 10 → ∀ b, b < 10 → a < b → Nat.digitChar a < Nat.digitChar b := by decide

theorem decDigitsAux_succ (fuel n : ℕ) :
    decDigitsAux (fuel + 1) n
      = if n < 10 then [n] else decDigitsAux fuel (n / 10) ++ [n % 10] := rfl

theorem decDigitsAux_small (fuel n : ℕ) (h : n < 10) :
    decDigitsAux (fuel + 1) n = [n] := by
  rw [decDigitsAux_succ, if_pos h]

theorem decDigitsAux_step (fuel n : ℕ) (h : ¬ n < 10) :
    decDigitsAux (fuel + 1) n = decDigitsAux fuel (n / 10) ++ [n % 10] := by
  rw [decDigitsAux_succ, if_neg h]

theorem decDigitsAux_two (fuel n : ℕ) (h10 : 10 ≤ n) (h100 : n < 100) (hf : 1 ≤ fuel) :
    decDigitsAux (fuel + 1) n = [n / 10, n % 10] := by
  rw [decDigitsAux_step fuel n (by omega)]
  obtain ⟨f2, rfl⟩ : ∃ f2, fuel = f2 + 1 := ⟨fuel - 1, by omega⟩
  rw [decDigitsAux_small f2 (n / 10) (by omega)]
  rfl

theorem decDigitsAux_three (fuel n : ℕ) (h1 : 100 ≤ n) (h2 : n < 1000) (hf : 2 ≤ fuel) :
    decDigitsAux (fuel + 1) n = [n / 100, n / 10 % 10, n % 10] := by
  rw [decDigitsAux_step fuel n (by omega)]
  obtain ⟨f2, rfl⟩ : ∃ f2, fuel = f2 + 1 := ⟨fuel - 1, by omega⟩
  rw [decDigitsAux_two f2 (n / 10) (by omega) (by omega) (by omega)]
  have e1 : n / 10 / 10 = n / 100 := by omega
  have e2 : n / 10 % 10 = n / 10 % 10 := rfl
  rw [e1]
  rfl

theorem decDigitsAux_four (fuel n : ℕ) (h1 : 1000 ≤ n) (h2 : n < 10000) (hf : 3 ≤ fuel) :
    decDigitsAux (fuel + 1) n = [n / 1000, n / 100 % 10, n / 10 % 10, n % 10] := by
  rw [decDigitsAux_step fuel n (by omega)]
  obtain ⟨f2, rfl⟩ : ∃ f2, fuel = f2 + 1 := ⟨fuel - 1, by omega⟩
  rw [decDigitsAux_three f2 (n / 10) (by omega) (by omega) (by omega)]
  have e1 : n / 10 / 100 = n / 1000 := by omega
  have e2 : n / 10 / 10 % 10 = n / 100 % 10 := by omega
  rw [e1, e2]
  rfl

/-- `%04d` of a number up to 9999 is the four base-10 digits. -/
theorem pad4_digits (k : ℕ) (hk : k ≤ 9999) :
    pad4 k = [Nat.digitChar (k / 1000), Nat.digitChar (k / 100 % 10),
              Nat.digitChar (k / 10 % 10), Nat.digitChar (k % 10)] := by
  unfold pad4 decDigits
  rcases Nat.lt_or_ge k 10 with h1 | h1
  · rw [decDigitsAux_small k k h1]
    have e1 : k / 1000 = 0 := by omega
    have e2 : k / 100 % 10 = 0 := by omega
    have e3 : k / 10 % 10 = 0 := by omega
    have e4 : k % 10 = k := by omega
    rw [e1, e2, e3, e4]
    rfl
  rcases Nat.lt_or_ge k 100 with h2 | h2
  · rw [decDigitsAux_two k k h1 h2 (by omega)]
    have e1 : k / 1000 = 0 := by omega
    have e2 : k / 100 % 10 = 0 := by omega
    have e3 : k / 10 % 10 = k / 10 := by omega
    rw [e1, e2, e3]
    rfl
  rcases Nat.lt_or_ge k 1000 with h3 | h3
  · rw [decDigitsAux_three k k h2 h3 (by omega)]
    have e1 : k / 1000 = 0 := by omega
    have e2 : k / 100 % 10 = k / 100 := by omega
    rw [e1, e2]
    rfl
  · rw [decDigitsAux_four k k h3 (by omega) (by omega)]
    rfl

theorem pad4_no_dash (k : ℕ) (hk : k ≤ 9999) : '-' ∉ pad4 k := by
  rw [pad4_digits k hk]
  intro hmem
  simp only [List.mem_cons, List.not_mem_nil, or_false] at hmem
  rcases hmem with h | h | h | h <;>
    exact absurd h.symm (digitChar_ne_dash _ (by omega))

/-- Parsing `%04d` output recovers the number. -/
theorem pyIntNat_pad4 (k : ℕ) (hk : k ≤ 9999) : pyIntNat (pad4 k) = some k := by
  rw [pad4_digits k hk]
  have d1 : k / 1000 < 10 := by omega
  have d2 : k / 100 % 10 < 10 := by omega
  have d3 : k / 10 % 10 < 10 := by omega
  have d4 : k % 10 < 10 := by omega
  simp only [pyIntNat, List.head?_cons]
  rw [if_neg (fun hplus => absurd (Option.some.inj hplus) (digitChar_ne_plus _ d1))]
  rw [if_pos ⟨by simp, by
    simp only [List.all_cons, List.all_nil, Bool.and_true]
    rw [digitChar_isDigit _ d1, digitChar_isDigit _ d2,
      digitChar_isDigit _ d3, digitChar_isDigit _ d4]
    rfl⟩]
  congr 1
  simp only [List.foldl_cons, List.foldl_nil]
  rw [digitChar_toNat_eq _ d1, digitChar_toNat_eq _ d2,
    digitChar_toNat_eq _ d3, digitChar_toNat_eq _ d4]
  omega

/-- `%04d` is strictly monotone (as CPython string order) below 10000. -/
theorem pad4_lt_of_lt (j k : ℕ) (hj : j ≤ 9999) (hk : k ≤ 9999) (hjk : j < k) :
    pad4 j < pad4 k := by
  rw [pad4_digits j hj, pad4_digits k hk]
  have bj1 : j / 1000 < 10 := by omega
  have bk1 : k / 1000 < 10 := by omega
  have bj2 : j / 100 % 10 < 10 := by omega
  have bk2 : k / 100 % 10 < 10 := by omega
  have bj3 : j / 10 % 10 < 10 := by omega
  have bk3 : k / 10 % 10 < 10 := by omega
  have bj4 : j % 10 < 10 := by omega
  have bk4 : k % 10 < 10 := by omega
  rcases Nat.lt_trichotomy (j / 1000) (k / 1000) with h1 | h1 | h1
  · exact List.Lex.rel (digitChar_lt_of_lt _ bj1 _ bk1 h1)
  · rw [h1]
    refine List.Lex.cons ?_
    rcases Nat.lt_trichotomy (j / 100 % 10) (k / 100 % 10) with h2 | h2 | h2
    · exact List.Lex.rel (digitChar_lt_of_lt _ bj2 _ bk2 h2)
    · rw [h2]
      refine List.Lex.cons ?_
      rcases Nat.lt_trichotomy (j / 10 % 10) (k / 10 % 10) with h3 | h3 | h3
      · exact List.Lex.rel (digitChar_lt_of_lt _ bj3 _ bk3 h3)
      · rw [h3]
        refine List.Lex.cons ?_
        have h4 : j % 10 < k % 10 := by omega
        exact List.Lex.rel (digitChar_lt_of_lt _ bj4 _ bk4 h4)
      · omega
    · omega
  · omega

theorem pad4_length_four (k : ℕ) (hk : k ≤ 9999) : (pad4 k).length = 4 := by
  rw [pad4_digits k hk]
  rfl

theorem pad4_all_digits (k : ℕ) (hk : k ≤ 9999) :
    ∀ c ∈ pad4 k, c.isDigit = true := by
  rw [pad4_digits k hk]
  intro c hc
  simp only [List.mem_cons, List.not_mem_nil, or_false] at hc
  rcases hc with rfl | rfl | rfl | rfl <;>
    exact digitChar_isDigit _ (by omega)

theorem Invoice.syncRefs_number (inv : Invoice) :
    (Invoice.syncRefs inv).invoiceNumber = inv.invoiceNumber := by
  unfold Invoice.syncRefs
  split_ifs <;> rfl

theorem Invoice.recompute_number (inv : Invoice) :
    (Invoice.recompute inv).invoiceNumber = inv.invoiceNumber := by
  unfold Invoice.recompute
  split_ifs <;> rfl

/-- Claim C8: `generate_invoice_number` produces
`INV-{year}-{month}-{4-digit-sequence}` where (starting from any store
whose numbers for this month's prefix are well-formed
`prefix-{4-digit}` strings) the sequence is the highest existing
sequence for the prefix plus one; it is 0001 when no number carries the
prefix; a highest-matching number with a non-numeric suffix falls back
to sequence 1 instead of failing; the generated sequence, up to 9999,
is four digits; and a save generates the number exactly once — a stored
non-empty number is never regenerated, while a missing number is filled
in from the generator. -/
theorem C8_invoice_numbering :
    (∀ year month existing,
      existing.filter (fun s => (invPref year month).isPrefixOf s) = [] →
      generate_invoice_number year month existing
        = invPref year month ++ '-' :: pad4 1) ∧
    (∀ year month existing (nums : List ℕ) (K : ℕ),
      (∀ s ∈ existing, (invPref year month).isPrefixOf s = true →
        ∃ k, k ∈ nums ∧ s = invPref year month ++ '-' :: pad4 k) →
      (∀ k ∈ nums, k ≤ 9999) →
      K ∈ nums →
      (invPref year month ++ '-' :: pad4 K) ∈ existing →
      (∀ k ∈ nums, k ≤ K) →
      generate_invoice_number year month existing
        = invPref year month ++ '-' :: pad4 (K + 1)) ∧
    (∀ year month existing badMax,
      maxStr (existing.filter (fun s => (invPref year month).isPrefixOf s))
        = some badMax →
      pyIntNat (lastToken badMax) = none →
      generate_invoice_number year month existing
        = invPref year month ++ '-' :: pad4 1) ∧
    (∀ j, 1 ≤ j → j ≤ 9999 → (pad4 j).length = 4 ∧ ∀ c ∈ pad4 j, c.isDigit = true) ∧
    (∀ (ctx : SaveCtx) (inv : Invoice) (n : PyStr),
      inv.invoiceNumber = some n → n ≠ [] →
      (Invoice.save ctx inv).invoiceNumber = some n) ∧
    (∀ (ctx : SaveCtx) (inv : Invoice),
      inv.invoiceNumber = none →
      (Invoice.save ctx inv).invoiceNumber
        = some (generate_invoice_number ctx.year ctx.month ctx.existing)) := by
  refine ⟨?_, ?_, ?_, ?_, ?_, ?_⟩
  · intro y m ex hfil
    simp only [generate_invoice_number]
    rw [hfil]
    rfl
  · intro y m ex nums K hshape hbound hKmem hKex hKmax
    have hpref : ∀ k : ℕ,
        (invPref y m).isPrefixOf (invPref y m ++ '-' :: pad4 k) = true := by
      intro k
      rw [ List.isPrefixOf_iff_prefix]
      exact List.prefix_append _ _
    have hM : (invPref y m ++ '-' :: pad4 K)
        ∈ ex.filter (fun s => (invPref y m).isPrefixOf s) :=
      List.mem_filter.mpr ⟨hKex, hpref K⟩
    have hub : ∀ x ∈ ex.filter (fun s => (invPref y m).isPrefixOf s),
        x = invPref y m ++ '-' :: pad4 K ∨ x < invPref y m ++ '-' :: pad4 K := by
      intro x hx
      obtain ⟨hxex, hxp⟩ := List.mem_filter.mp hx
      obtain ⟨k, hknums, rfl⟩ := hshape x hxex hxp
      rcases Nat.eq_or_lt_of_le (hKmax k hknums) with heq | hlt
      · left
        rw [heq]
      · right
        exact pyStr_lt_append _ _ _
          (List.Lex.cons (pad4_lt_of_lt k K (hbound k hknums) (hbound K hKmem) hlt))
    have hmax := maxStr_eq_of _ _ hM hub
    simp only [generate_invoice_number, hmax]
    rw [lastToken_append _ _ (pad4_no_dash K (hbound K hKmem)),
      pyIntNat_pad4 K (hbound K hKmem)]
  · intro y m ex badMax hmax hbad
    simp only [generate_invoice_number, hmax, hbad]
  · intro j _ h9
    exact ⟨pad4_length_four j h9, pad4_all_digits j h9⟩
  · intro ctx inv n hn hne
    unfold Invoice.save
    rw [Invoice.recompute_number, Invoice.syncRefs_number]
    unfold Invoice.assignNumber
    rw [if_neg ?hcond]
    · exact hn
    case hcond =>
      intro hcase
      rcases hcase with h | h
      · rw [hn] at h
        cases h
      · rw [hn] at h
        exact hne (Option.some.inj h)
  · intro ctx inv hn
    unfold Invoice.save
    rw [Invoice.recompute_number, Invoice.syncRefs_number]
    unfold Invoice.assignNumber
    rw [if_pos (Or.inl hn)]

/-- Claim C8 (witness): concrete generation — empty month starts at
0001, a month holding 0001 yields 0002, and a malformed
highest-matching number falls back to 0001. -/
theorem C8_invoice_numbering_witness :
    generate_invoice_number "2026".data "10".data [] = "INV-2026-10-0001".data ∧
    generate_invoice_number "2026".data "10".data ["INV-2026-10-0001".data]
      = "INV-2026-10-0002".data ∧
    generate_invoice_number "2026".data "10".data
        ["INV-2026-10-ABCD".data, "INV-2026-10-0001".data]
      = "INV-2026-10-0001".data := by
  refine ⟨?_, ?_, ?_⟩
  · exact (C8_invoice_numbering.1 "2026".data "10".data [] (by decide)).trans (by decide)
  · exact (C8_invoice_numbering.2.1 "2026".data "10".data ["INV-2026-10-0001".data]
      [1] 1 (by decide) (by decide) (by decide) (by decide) (by decide)).trans (by decide)
  · exact (C8_invoice_numbering.2.2.1 "2026".data "10".data
      ["INV-2026-10-ABCD".data, "INV-2026-10-0001".data] "INV-2026-10-ABCD".data
      (by decide) (by decide)).trans (by decide)

end MapleKey
